import Mathlib

/-!
Verification of the dodgem trade-bumping tool (src/index.js) against its
specification.

The program drives a headless browser ("page driver") through a promise
chain: `boot → login → scrapeTrades → updateTrades → scheduleUpdateTrades`,
where the scheduler re-invokes `scrapeTrades → updateTrades →
scheduleUpdateTrades` on a `setTimeout` of `1000 * 60 * interval`
milliseconds, forever.

Shallow embedding choices:
- A page-driver call is a `PdOp`; its outcome is given by an oracle
  `driver : PdOp → Except DriverError Unit` and its wall-clock duration in
  milliseconds by `dur : PdOp → Nat`.  `ExecState` threads the current
  wall-clock time (`moment()` readings) and the log of driver calls made.
- JavaScript array indexing (which yields `undefined` out of range) is
  modelled by `jsIndex : List String → Int → Option String`; values that
  may be `undefined` have type `Option String` (`none` = `undefined`).
- The DOM extraction inside `page.evaluate` is external input: the listing
  URLs it returns, in document order, are a parameter `evalResult`.
- `moment().diff(start, 'seconds')` truncates a millisecond difference to
  whole seconds: `momentDiffSeconds`.
- The per-listing spinner outcomes emitted by `updateTrades` form the
  CycleReport of the spec; the embedding returns them as `List BumpResult`.
- The credential store (`prefs`, a `Preferences` singleton in the source)
  is threaded explicitly as a `Credentials` value; the `bump` pipeline
  never assigns to it in the source, so every stage passes it through.
-/

/-- The credential record stored by the Preferences store:
`{username, emailAddress, password}`. -/
structure Credentials where
  username : String
  emailAddress : String
  password : String
deriving DecidableEq

/-- Errors a page-driver (puppeteer) call can raise. -/
inductive DriverError where
  | navigationTimeout
  | elementNotFound
  | networkFailure
deriving DecidableEq

/-- One page-driver invocation, as issued by the source:
`page.goto`, `page.focus`, `page.type`, `page.click`,
`page.waitForNavigation`, `page.evaluate`.  `goto` takes an
`Option String` because the source can pass an `undefined` URL. -/
inductive PdOp where
  | goto (url : Option String)
  | focus (selector : String)
  | typeText (text : String)
  | click (selector : String)
  | waitForNavigation
  | evaluate
deriving DecidableEq

/-- Execution state threaded through the promise chain: the current
wall-clock time in milliseconds and the ordered log of driver calls. -/
structure ExecState where
  now : Nat
  calls : List PdOp
deriving DecidableEq

/-- Perform one page-driver call: time advances by the call's duration,
the call is logged, and the driver oracle decides success or failure. -/
def callDriver (driver : PdOp → Except DriverError Unit) (dur : PdOp → Nat)
    (st : ExecState) (op : PdOp) : ExecState × Except DriverError Unit :=
  (⟨st.now + dur op, st.calls ++ [op]⟩, driver op)

/-- Run a sequence of page-driver calls in order, stopping at the first
failure (an `await` chain with no intervening catch). -/
def runSteps (driver : PdOp → Except DriverError Unit) (dur : PdOp → Nat) :
    ExecState → List PdOp → ExecState × Except DriverError Unit
  | st, [] => (st, Except.ok ())
  | st, op :: rest =>
    let (st1, r) := callDriver driver dur st op
    match r with
    | Except.ok () => runSteps driver dur st1 rest
    | Except.error e => (st1, Except.error e)

/-- Whether a single driver call succeeds. -/
def stepOk (driver : PdOp → Except DriverError Unit) (op : PdOp) : Bool :=
  match driver op with
  | Except.ok () => true
  | Except.error _ => false

/-- The prefix of an `await` chain that actually executes: every call up
to and including the first failing one. -/
def attempted (driver : PdOp → Except DriverError Unit) : List PdOp → List PdOp
  | [] => []
  | op :: rest =>
    match driver op with
    | Except.ok () => op :: attempted driver rest
    | Except.error _ => [op]

/-- `moment().diff(start, 'seconds')`: millisecond difference truncated to
whole seconds. -/
def momentDiffSeconds (endMs startMs : Nat) : Nat :=
  (endMs - startMs) / 1000

/-- The driver calls issued by `login` (src/index.js lines 58-76):
navigate to the login page, fill email and password, submit, wait. -/
def loginSteps (prefs : Credentials) : List PdOp :=
  [PdOp.goto (some "https://rocket-league.com/login"),
   PdOp.focus ".rlg-form .rlg-input[type=\"email\"]",
   PdOp.typeText prefs.emailAddress,
   PdOp.focus ".rlg-form .rlg-input[type=\"password\"]",
   PdOp.typeText prefs.password,
   PdOp.click ".rlg-form .rlg-btn-primary[type=\"submit\"]",
   PdOp.waitForNavigation]

/-- `login` (src/index.js lines 58-76): issues `loginSteps` with no
try/catch and no post-login check; the first driver error propagates. -/
def login (driver : PdOp → Except DriverError Unit) (dur : PdOp → Nat)
    (st : ExecState) (prefs : Credentials) : ExecState × Except DriverError Unit :=
  runSteps driver dur st (loginSteps prefs)

/-- The bump target: `all` or `oldest` (CLI argument `<target>`). -/
inductive Target where
  | all
  | oldest
deriving DecidableEq

/-- JavaScript array indexing `xs[i]`: `undefined` (`none`) when `i` is
negative or out of range. -/
def jsIndex (xs : List String) (i : Int) : Option String :=
  if 0 ≤ i then xs.get? i.toNat else none

/-- The target-selection line of `scrapeTrades` (src/index.js line 100):
`if (args.target === 'oldest') tradeUrls = [tradeUrls[tradeUrls.length - 1]]`.
For `all` the scraped array is returned unchanged (its elements are
defined strings); for `oldest` a one-element array holding
`tradeUrls[tradeUrls.length - 1]`, which is `undefined` when the array is
empty. -/
def applyTarget (target : Target) (tradeUrls : List String) : List (Option String) :=
  match target with
  | Target.all => tradeUrls.map some
  | Target.oldest => [jsIndex tradeUrls ((tradeUrls.length : Int) - 1)]

/-- `scrapeTrades` (src/index.js lines 86-102): navigate to the user's
trade page, evaluate the DOM extractor (whose document-order result is the
parameter `evalResult`), then apply the target policy.  Driver errors
propagate (no catch). -/
def scrapeTrades (driver : PdOp → Except DriverError Unit) (dur : PdOp → Nat)
    (st : ExecState) (username : String) (evalResult : List String)
    (target : Target) : ExecState × Except DriverError (List (Option String)) :=
  let (st1, r1) := callDriver driver dur st
    (PdOp.goto (some ("https://rocket-league.com/trades/" ++ username)))
  match r1 with
  | Except.error e => (st1, Except.error e)
  | Except.ok () =>
    let (st2, r2) := callDriver driver dur st1 PdOp.evaluate
    match r2 with
    | Except.error e => (st2, Except.error e)
    | Except.ok () => (st2, Except.ok (applyTarget target evalResult))

/-- Outcome of one bump attempt, as reported by the spinner. -/
inductive Outcome where
  | SUCCESS
  | FAILURE
deriving DecidableEq

/-- Per-listing outcome record of the spec's CycleReport:
`{index, url, outcome, elapsedSeconds}`. -/
structure BumpResult where
  index : Nat
  url : Option String
  outcome : Outcome
  elapsedSeconds : Nat
deriving DecidableEq

/-- The driver calls of one bump attempt (src/index.js lines 122-133):
navigate to the listing, click the edit link, wait, click submit, wait. -/
def bumpSteps (url : Option String) : List PdOp :=
  [PdOp.goto url,
   PdOp.click "[href^=\x27/trade/edit\x27]",
   PdOp.waitForNavigation,
   PdOp.click "#rlg-addTradeForm input[type=submit]",
   PdOp.waitForNavigation]

/-- The `for (let [index, tradeUrl] of tradeUrls.entries())` loop of
`updateTrades` (src/index.js lines 113-151): for each URL record
`start = moment()`, run the bump steps inside try/catch, and report
success or failure with `moment().diff(start, 'seconds')`; the loop always
continues to the next URL. -/
def updateTradesLoop (driver : PdOp → Except DriverError Unit) (dur : PdOp → Nat) :
    Nat → ExecState → List (Option String) → ExecState × List BumpResult
  | _, st, [] => (st, [])
  | index, st, url :: rest =>
    let start := st.now
    let s := runSteps driver dur st (bumpSteps url)
    let secondsElapsed := momentDiffSeconds s.1.now start
    let result : BumpResult :=
      { index := index, url := url,
        outcome := match s.2 with
          | Except.ok () => Outcome.SUCCESS
          | Except.error _ => Outcome.FAILURE,
        elapsedSeconds := secondsElapsed }
    let cont := updateTradesLoop driver dur (index + 1) s.1 rest
    (cont.1, result :: cont.2)

/-- `updateTrades` (src/index.js lines 113-151). -/
def updateTrades (driver : PdOp → Except DriverError Unit) (dur : PdOp → Nat)
    (st : ExecState) (tradeUrls : List (Option String)) :
    ExecState × List BumpResult :=
  updateTradesLoop driver dur 0 st tradeUrls

/-- The spec-side description of the report entry for input position `i`
holding URL `u`: index `i`, that URL, SUCCESS exactly when all five bump
steps succeed, and elapsed time equal to the total duration of the steps
actually attempted, truncated to whole seconds. -/
def entrySpec (driver : PdOp → Except DriverError Unit) (dur : PdOp → Nat)
    (i : Nat) (u : Option String) : BumpResult :=
  { index := i, url := u,
    outcome := if (bumpSteps u).all (stepOk driver) then Outcome.SUCCESS
               else Outcome.FAILURE,
    elapsedSeconds := ((attempted driver (bumpSteps u)).map dur).sum / 1000 }

/-- Event-loop phases of the `bump` action's promise chain
(src/index.js lines 227-233) and of `scheduleUpdateTrades`
(lines 160-171).  `wait ms` is the pending `setTimeout` with `ms`
milliseconds left. -/
inductive Phase where
  | boot
  | login
  | scrape
  | update
  | schedule
  | wait (msLeft : Nat)
deriving DecidableEq

/-- Whether a phase is the Session Manager (`login`) running. -/
def isLoginPhase : Phase → Bool
  | Phase.login => true
  | _ => false

/-- Phases reached after `login` has completed. -/
def postLogin : Phase → Bool
  | Phase.boot => false
  | Phase.login => false
  | _ => true

/-- One millisecond-granularity step of the event loop for interval
`interval` (minutes): the promise chain `boot → login → scrapeTrades →
updateTrades → scheduleUpdateTrades`, then `setTimeout(..., 1000 * 60 *
interval)` counting down to re-enter `scrapeTrades`. -/
def schedStep (interval : Nat) : Phase → Phase
  | Phase.boot => Phase.login
  | Phase.login => Phase.scrape
  | Phase.scrape => Phase.update
  | Phase.update => Phase.schedule
  | Phase.schedule => Phase.wait (1000 * 60 * interval)
  | Phase.wait 0 => Phase.scrape
  | Phase.wait (ms + 1) => Phase.wait ms

/-- The `<interval>` argument's validator (src/index.js line 226), the
regex `^\d*$`: every character of the argument is a decimal digit. -/
def intervalPattern (s : String) : Bool :=
  s.data.all Char.isDigit

/-- Decimal reading of a digit string, as JavaScript's numeric coercion
of the interval argument (`1000 * 60 * minutes`) evaluates it. -/
def intervalValue (s : String) : Nat :=
  s.data.foldl (fun n c => n * 10 + (c.toNat - '0'.toNat)) 0

/-- The `<interval>` argument's default (src/index.js line 226). -/
def intervalDefault : Nat := 15

/-- `setLogin` (src/index.js lines 176-217): the prompt either fails
(abort message printed, `prefs` untouched) or yields credentials whose
three fields are assigned into `prefs`. -/
def setLogin (prefs : Credentials) (promptResult : Except String Credentials) :
    Credentials :=
  match promptResult with
  | Except.error _ => prefs
  | Except.ok credentials =>
    { prefs with
      username := credentials.username,
      emailAddress := credentials.emailAddress,
      password := credentials.password }

/-- Global state of one `bump` run: the credential store and the
execution state. -/
structure GlobalState where
  prefs : Credentials
  exec : ExecState
deriving DecidableEq

/-- One cycle of the scheduler's timer callback
(src/index.js lines 166-170): `scrapeTrades` then `updateTrades`.
Returns the new state and whether the chain is still alive (a scrape
error rejects the promise chain and no further cycle runs).  No stage
assigns to `prefs`. -/
def cycleOnce (driver : PdOp → Except DriverError Unit) (dur : PdOp → Nat)
    (evalResult : List String) (target : Target) (g : GlobalState) :
    GlobalState × Bool :=
  let s := scrapeTrades driver dur g.exec g.prefs.username evalResult target
  match s.2 with
  | Except.error _ => ({ g with exec := s.1 }, false)
  | Except.ok urls =>
    ({ g with exec := (updateTrades driver dur s.1 urls).1 }, true)

/-- `n` scheduled cycles (src/index.js lines 160-171), stopping early if
the chain dies. -/
def runCycles (driver : PdOp → Except DriverError Unit) (dur : PdOp → Nat)
    (evalResult : List String) (target : Target) :
    Nat → GlobalState → GlobalState
  | 0, g => g
  | n + 1, g =>
    let (g1, alive) := cycleOnce driver dur evalResult target g
    if alive then runCycles driver dur evalResult target n g1 else g1

/-- The whole `bump` pipeline (src/index.js lines 227-233): `login` once,
then `n` discover/update cycles.  A login failure aborts before any
cycle. -/
def bumpRun (driver : PdOp → Except DriverError Unit) (dur : PdOp → Nat)
    (evalResult : List String) (target : Target) (n : Nat) (g : GlobalState) :
    GlobalState :=
  let l := login driver dur g.exec g.prefs
  match l.2 with
  | Except.error _ => { g with exec := l.1 }
  | Except.ok () => runCycles driver dur evalResult target n { g with exec := l.1 }

/-! ## Helper lemmas -/

theorem runSteps_ok_iff (driver : PdOp → Except DriverError Unit) (dur : PdOp → Nat) :
    ∀ (ops : List PdOp) (st : ExecState),
      (runSteps driver dur st ops).2 = Except.ok () ↔ ops.all (stepOk driver) = true := by
  intro ops
  induction ops with
  | nil => intro st; simp [runSteps]
  | cons op rest ih =>
    intro st
    simp only [runSteps, callDriver, List.all_cons, Bool.and_eq_true]
    cases h : driver op with
    | ok u =>
      cases u
      simp [stepOk, h, ih]
    | error e =>
      simp [stepOk, h]

theorem runSteps_error_mem (driver : PdOp → Except DriverError Unit) (dur : PdOp → Nat) :
    ∀ (ops : List PdOp) (st : ExecState) (e : DriverError),
      (runSteps driver dur st ops).2 = Except.error e →
      ∃ op ∈ ops, driver op = Except.error e := by
  intro ops
  induction ops with
  | nil => intro st e h; simp [runSteps] at h
  | cons op rest ih =>
    intro st e h
    simp only [runSteps, callDriver] at h
    cases hop : driver op with
    | ok u =>
      cases u
      rw [hop] at h
      simp only at h
      obtain ⟨op1, hmem, he⟩ := ih _ e h
      exact ⟨op1, List.mem_cons_of_mem op hmem, he⟩
    | error e1 =>
      rw [hop] at h
      simp only at h
      cases h
      exact ⟨op, List.mem_cons_self op rest, hop⟩

theorem runSteps_now (driver : PdOp → Except DriverError Unit) (dur : PdOp → Nat) :
    ∀ (ops : List PdOp) (st : ExecState),
      (runSteps driver dur st ops).1.now =
        st.now + ((attempted driver ops).map dur).sum := by
  intro ops
  induction ops with
  | nil => intro st; simp [runSteps, attempted]
  | cons op rest ih =>
    intro st
    simp only [runSteps, callDriver, attempted]
    cases h : driver op with
    | ok u =>
      cases u
      simp only [ih]
      simp [Nat.add_assoc]
    | error e =>
      simp

theorem updateTradesLoop_length (driver : PdOp → Except DriverError Unit) (dur : PdOp → Nat) :
    ∀ (urls : List (Option String)) (k : Nat) (st : ExecState),
      ((updateTradesLoop driver dur k st urls).2).length = urls.length := by
  intro urls
  induction urls with
  | nil => intro k st; rfl
  | cons u rest ih => intro k st; simp [updateTradesLoop, ih]

theorem bumpEntry_spec (driver : PdOp → Except DriverError Unit) (dur : PdOp → Nat)
    (st : ExecState) (k : Nat) (u : Option String) :
    ({ index := k, url := u,
       outcome := match (runSteps driver dur st (bumpSteps u)).2 with
         | Except.ok () => Outcome.SUCCESS
         | Except.error _ => Outcome.FAILURE,
       elapsedSeconds :=
         momentDiffSeconds (runSteps driver dur st (bumpSteps u)).1.now st.now } :
      BumpResult) = entrySpec driver dur k u := by
  unfold entrySpec
  simp only [BumpResult.mk.injEq, true_and]
  constructor
  · cases hall : (bumpSteps u).all (stepOk driver) with
    | true =>
      rw [if_pos rfl]
      rw [(runSteps_ok_iff driver dur (bumpSteps u) st).mpr hall]
    | false =>
      rw [if_neg (by simp)]
      cases hr : (runSteps driver dur st (bumpSteps u)).2 with
      | ok v =>
        cases v
        rw [(runSteps_ok_iff driver dur (bumpSteps u) st).mp hr] at hall
        cases hall
      | error e => rfl
  · rw [runSteps_now driver dur (bumpSteps u) st]
    unfold momentDiffSeconds
    rw [Nat.add_sub_cancel_left]

theorem updateTradesLoop_get? (driver : PdOp → Except DriverError Unit) (dur : PdOp → Nat) :
    ∀ (urls : List (Option String)) (k : Nat) (st : ExecState) (i : Nat),
      ((updateTradesLoop driver dur k st urls).2).get? i =
        (urls.get? i).map (fun u => entrySpec driver dur (k + i) u) := by
  intro urls
  induction urls with
  | nil => intro k st i; simp [updateTradesLoop]
  | cons u rest ih =>
    intro k st i
    cases i with
    | zero =>
      simp only [updateTradesLoop, List.get?_cons_zero, Nat.add_zero, Option.map_some']
      exact congrArg some (bumpEntry_spec driver dur st k u)
    | succ j =>
      simp only [updateTradesLoop, List.get?_cons_succ]
      rw [ih]
      have e : k + 1 + j = k + (j + 1) := by omega
      rw [e]

theorem schedStep_wait_run (interval : Nat) :
    ∀ k : Nat, (schedStep interval)^[k + 1] (Phase.wait k) = Phase.scrape := by
  intro k
  induction k with
  | zero => rfl
  | succ m ih =>
    rw [Function.iterate_succ_apply]
    exact ih

theorem postLogin_schedStep (interval : Nat) :
    ∀ p : Phase, postLogin p = true → postLogin (schedStep interval p) = true := by
  intro p hp
  cases p with
  | boot => simp [postLogin] at hp
  | login => simp [postLogin] at hp
  | scrape => rfl
  | update => rfl
  | schedule => rfl
  | wait ms =>
    cases ms with
    | zero => rfl
    | succ m => rfl

theorem postLogin_iterate (interval : Nat) :
    ∀ (n : Nat) (p : Phase), postLogin p = true →
      postLogin ((schedStep interval)^[n] p) = true := by
  intro n
  induction n with
  | zero => intro p hp; exact hp
  | succ m ih =>
    intro p hp
    rw [Function.iterate_succ_apply]
    exact ih _ (postLogin_schedStep interval p hp)

theorem isLoginPhase_eq_false_of_postLogin :
    ∀ p : Phase, postLogin p = true → isLoginPhase p = false := by
  intro p hp
  cases p with
  | boot => simp [postLogin] at hp
  | login => simp [postLogin] at hp
  | scrape => rfl
  | update => rfl
  | schedule => rfl
  | wait ms => rfl

theorem char_digit_sub_eq_zero_iff (c : Char) (hd : c.isDigit = true) :
    c.toNat - Char.toNat '0' = 0 ↔ c = '0' := by
  constructor
  · intro h0
    have hb : (48 : UInt32) ≤ c.val ∧ c.val ≤ 57 := by
      simpa [Char.isDigit, Bool.and_eq_true, decide_eq_true_eq] using hd
    have h48 : (48 : Nat) ≤ c.toNat :=
      UInt32.le_toNat_of_le (by norm_num [UInt32.size]) hb.1
    have hz : Char.toNat '0' = 48 := rfl
    have heq : c.toNat = Char.toNat '0' := by omega
    have hv : c.val.toNat = ('0' : Char).val.toNat := heq
    exact Char.ext (UInt32.toNat.inj hv)
  · intro h
    subst h
    rfl

theorem digitsFoldl_eq_zero_iff :
    ∀ (cs : List Char) (acc : Nat), cs.all Char.isDigit = true →
      (cs.foldl (fun n c => n * 10 + (c.toNat - Char.toNat '0')) acc = 0 ↔
        acc = 0 ∧ ∀ c ∈ cs, c = '0') := by
  intro cs
  induction cs with
  | nil => intro acc h; simp
  | cons c rest ih =>
    intro acc hall
    simp only [List.all_cons, Bool.and_eq_true] at hall
    obtain ⟨hc, hrest⟩ := hall
    rw [List.foldl_cons, ih _ hrest]
    have hz := char_digit_sub_eq_zero_iff c hc
    constructor
    · rintro ⟨hsum, hrest0⟩
      have hacc : acc = 0 := by omega
      have hd0 : c.toNat - Char.toNat '0' = 0 := by omega
      refine ⟨hacc, ?_⟩
      intro x hx
      rcases List.mem_cons.mp hx with hx | hx
      · rw [hx]; exact hz.mp hd0
      · exact hrest0 x hx
    · rintro ⟨hacc, hall0⟩
      have hc0 : c = '0' := hall0 c (List.mem_cons_self c rest)
      have hd0 : c.toNat - Char.toNat '0' = 0 := hz.mpr hc0
      refine ⟨by omega, ?_⟩
      intro x hx
      exact hall0 x (List.mem_cons_of_mem c hx)

theorem intervalValue_pos_iff (s : String) (h : intervalPattern s = true) :
    0 < intervalValue s ↔ ∃ c ∈ s.data, c ≠ '0' := by
  unfold intervalValue
  rw [Nat.pos_iff_ne_zero, ne_eq,
    digitsFoldl_eq_zero_iff s.data 0 h]
  simp only [true_and, not_forall, exists_prop, ne_eq]

theorem jsIndex_last (L : List String) (h : L ≠ []) :
    jsIndex L ((L.length : Int) - 1) = some (L.getLast h) := by
  have hlen : 0 < L.length := List.length_pos.mpr h
  unfold jsIndex
  rw [if_pos (by omega : (0 : Int) ≤ (L.length : Int) - 1)]
  have ht : ((L.length : Int) - 1).toNat = L.length - 1 := by omega
  rw [ht, List.get?_eq_getElem?, ← List.getLast?_eq_getElem?]
  exact List.getLast?_eq_getLast L h

theorem cycleOnce_prefs (driver : PdOp → Except DriverError Unit) (dur : PdOp → Nat)
    (evalResult : List String) (target : Target) (g : GlobalState) :
    (cycleOnce driver dur evalResult target g).1.prefs = g.prefs := by
  unfold cycleOnce
  cases h : (scrapeTrades driver dur g.exec g.prefs.username evalResult target).2 <;>
    simp only [h]

theorem runCycles_prefs (driver : PdOp → Except DriverError Unit) (dur : PdOp → Nat)
    (evalResult : List String) (target : Target) :
    ∀ (n : Nat) (g : GlobalState),
      (runCycles driver dur evalResult target n g).prefs = g.prefs := by
  intro n
  induction n with
  | zero => intro g; rfl
  | succ m ih =>
    intro g
    show (if (cycleOnce driver dur evalResult target g).2 = true then
            runCycles driver dur evalResult target m
              (cycleOnce driver dur evalResult target g).1
          else (cycleOnce driver dur evalResult target g).1).prefs = g.prefs
    by_cases hc : (cycleOnce driver dur evalResult target g).2 = true
    · rw [if_pos hc, ih, cycleOnce_prefs]
    · rw [if_neg hc, cycleOnce_prefs]

/-! ## Claim theorems -/

/-- C1: `updateTrades` processes the listing URLs strictly in input order
with per-item failure isolation: for every page-driver behaviour
(including any pattern of failures) the returned CycleReport has exactly
one entry per input URL, the entry at position `i` carries index `i`, the
`i`-th input URL, and outcome SUCCESS exactly when all five bump steps
for that URL succeed — so a caught failure at listing `i` still leaves
the entries for listings `i+1..n` present, and no failure aborts the
batch. -/
theorem updateTrades_in_order_failure_isolated :
    ∀ (driver : PdOp → Except DriverError Unit) (dur : PdOp → Nat)
      (st : ExecState) (urls : List (Option String)),
      ((updateTrades driver dur st urls).2).length = urls.length ∧
      ∀ i : Nat,
        (((updateTrades driver dur st urls).2).get? i).map
            (fun r => (r.index, r.url, r.outcome)) =
          (urls.get? i).map (fun u =>
            (i, u, if (bumpSteps u).all (stepOk driver) then Outcome.SUCCESS
                   else Outcome.FAILURE)) := by
  intro driver dur st urls
  refine ⟨updateTradesLoop_length driver dur urls 0 st, ?_⟩
  intro i
  rw [updateTrades, updateTradesLoop_get?]
  cases urls.get? i with
  | none => rfl
  | some u => simp [entrySpec]

/-- C2 (code bug): on an empty scraped listing set, `target=all` indeed
yields the empty sequence and `updateTrades` on an empty sequence returns
the empty report with the execution state (time and driver-call log)
untouched — no navigation happens — but `target=oldest` yields the
one-element sequence `[undefined]` (the out-of-range read
`tradeUrls[-1]`), not the empty sequence the spec requires. -/
theorem scrapeTrades_empty_oldest_not_empty :
    (scrapeTrades (fun _ => Except.ok ()) (fun _ => 0) ⟨0, []⟩ "user" []
        Target.all).2 = Except.ok [] ∧
    updateTrades (fun _ => Except.ok ()) (fun _ => 0) ⟨0, []⟩ [] = (⟨0, []⟩, []) ∧
    (scrapeTrades (fun _ => Except.ok ()) (fun _ => 0) ⟨0, []⟩ "user" []
        Target.oldest).2 = Except.ok [none] :=
  ⟨rfl, rfl, rfl⟩

/-- C3: for every non-empty scraped listing sequence `L` (in document
order) and `target=oldest`, `scrapeTrades` returns exactly the
one-element sequence holding the last element of `L`. -/
theorem scrapeTrades_oldest_last :
    ∀ (driver : PdOp → Except DriverError Unit) (dur : PdOp → Nat)
      (st : ExecState) (username : String) (L : List String)
      (hok : ∀ op, driver op = Except.ok ()) (hne : L ≠ []),
      (scrapeTrades driver dur st username L Target.oldest).2 =
        Except.ok [some (L.getLast hne)] := by
  intro driver dur st username L hok hne
  simp only [scrapeTrades, callDriver, hok, applyTarget]
  rw [jsIndex_last L hne]

/-- Witness for C3 at a concrete driver and listing sequence: the oldest
(last) of three listings is selected. -/
theorem scrapeTrades_oldest_last_witness :
    (scrapeTrades (fun _ => Except.ok ()) (fun _ => 0) ⟨0, []⟩ "user"
      ["urlA", "urlB", "urlC"] Target.oldest).2 = Except.ok [some "urlC"] := by
  have h := scrapeTrades_oldest_last (fun _ => Except.ok ()) (fun _ => 0) ⟨0, []⟩
    "user" ["urlA", "urlB", "urlC"] (fun _ => rfl) (by decide)
  exact h

/-- C4: for `target=all`, `scrapeTrades` returns the scraped sequence
unchanged — the same listings, in the same order, with the same
length. -/
theorem scrapeTrades_all_unchanged :
    ∀ (driver : PdOp → Except DriverError Unit) (dur : PdOp → Nat)
      (st : ExecState) (username : String) (L : List String)
      (hok : ∀ op, driver op = Except.ok ()),
      (scrapeTrades driver dur st username L Target.all).2 =
        Except.ok (L.map some) ∧
      (L.map some).length = L.length ∧
      ∀ i : Nat, (L.map some).get? i = (L.get? i).map some := by
  intro driver dur st username L hok
  refine ⟨?_, List.length_map L some, fun i => List.get?_map some L i⟩
  simp only [scrapeTrades, callDriver, hok, applyTarget]

/-- Witness for C4 at a concrete driver and listing sequence. -/
theorem scrapeTrades_all_unchanged_witness :
    (scrapeTrades (fun _ => Except.ok ()) (fun _ => 0) ⟨0, []⟩ "user"
      ["urlA", "urlB"] Target.all).2 = Except.ok [some "urlA", some "urlB"] :=
  (scrapeTrades_all_unchanged (fun _ => Except.ok ()) (fun _ => 0) ⟨0, []⟩
    "user" ["urlA", "urlB"] (fun _ => rfl)).1

/-- C5: after a batch the scheduler enters a pending timer of exactly
`1000 * 60 * interval` milliseconds (`intervalMinutes` minutes); when it
expires, Listing Discovery, then the Update Executor, then the scheduler
itself run again, and this recurs with period `1000 * 60 * interval + 4`
event-loop steps indefinitely; no phase reached after a schedule point is
ever the Session Manager again (login is not re-invoked). -/
theorem scheduleUpdateTrades_cycle :
    ∀ interval : Nat,
      schedStep interval Phase.schedule = Phase.wait (1000 * 60 * interval) ∧
      (schedStep interval)^[1000 * 60 * interval + 2] Phase.schedule =
        Phase.scrape ∧
      (schedStep interval)^[1000 * 60 * interval + 3] Phase.schedule =
        Phase.update ∧
      (schedStep interval)^[1000 * 60 * interval + 4] Phase.schedule =
        Phase.schedule ∧
      (∀ k : Nat,
        (schedStep interval)^[k * (1000 * 60 * interval + 4)] Phase.schedule =
          Phase.schedule) ∧
      (∀ n : Nat,
        isLoginPhase ((schedStep interval)^[n + 1] Phase.schedule) = false) := by
  intro interval
  have e1 : (schedStep interval)^[1000 * 60 * interval + 1]
      (schedStep interval Phase.schedule) = Phase.scrape :=
    schedStep_wait_run interval (1000 * 60 * interval)
  have h2 : (schedStep interval)^[1000 * 60 * interval + 2] Phase.schedule =
      Phase.scrape :=
    (Function.iterate_succ_apply (schedStep interval)
      (1000 * 60 * interval + 1) Phase.schedule).trans e1
  have h3 : (schedStep interval)^[1000 * 60 * interval + 3] Phase.schedule =
      Phase.update := by
    have h := Function.iterate_succ_apply' (schedStep interval)
      (1000 * 60 * interval + 2) Phase.schedule
    rw [h2] at h
    exact h
  have h4 : (schedStep interval)^[1000 * 60 * interval + 4] Phase.schedule =
      Phase.schedule := by
    have h := Function.iterate_succ_apply' (schedStep interval)
      (1000 * 60 * interval + 3) Phase.schedule
    rw [h3] at h
    exact h
  refine ⟨rfl, h2, h3, h4, ?_, ?_⟩
  · intro k
    induction k with
    | zero => rw [Nat.zero_mul]; rfl
    | succ m ih =>
      have e : (m + 1) * (1000 * 60 * interval + 4) =
          m * (1000 * 60 * interval + 4) + (1000 * 60 * interval + 4) :=
        Nat.succ_mul m (1000 * 60 * interval + 4)
      rw [e, Function.iterate_add_apply, h4, ih]
  · intro n
    have hstep : (schedStep interval)^[n + 1] Phase.schedule =
        (schedStep interval)^[n] (Phase.wait (1000 * 60 * interval)) :=
      Function.iterate_succ_apply (schedStep interval) n Phase.schedule
    rw [hstep]
    exact isLoginPhase_eq_false_of_postLogin _
      (postLogin_iterate interval n _ rfl)

/-- C6 counterexample: the claim that every interval argument accepted by
the validator denotes a positive number of minutes is false — the
argument "0" matches the digit-only pattern `^\d*$` yet denotes zero
minutes. -/
theorem intervalPattern_accepts_nonpositive :
    ¬ (∀ s : String, intervalPattern s = true → 0 < intervalValue s) := by
  intro h
  have h1 : (0 : Nat) < intervalValue "0" := h "0" (by decide)
  have h2 : intervalValue "0" = 0 := by decide
  rw [h2] at h1
  exact Nat.lt_irrefl 0 h1

/-- C6 (amended): every interval argument accepted by the bump command's
validation is a digit-only string, hence a non-negative integer number of
minutes; its value is positive exactly when some character differs from
the digit 0 (in particular "0" and the empty string are also accepted,
with value zero); the default when no interval is given is 15. -/
theorem intervalPattern_digits_default :
    (∀ s : String, intervalPattern s = true →
      (0 < intervalValue s ↔ ∃ c ∈ s.data, c ≠ '0')) ∧
    intervalDefault = 15 :=
  ⟨fun s h => intervalValue_pos_iff s h, rfl⟩

/-- Witness for the amended C6 at the concrete accepted argument "15". -/
theorem intervalPattern_digits_default_witness :
    intervalPattern "15" = true ∧ 0 < intervalValue "15" :=
  ⟨by decide,
    (intervalPattern_digits_default.1 "15" (by decide)).mpr
      ⟨'1', by decide, by decide⟩⟩

/-- C7: `login` performs no post-login verification — whenever every
page-driver call succeeds, `login` succeeds, independently of whether
authentication actually worked — and any page-driver error propagates out
of `login` uncaught and untransformed: a failing result is the error of
one of the `loginSteps` driver calls, with no retry and no handling. -/
theorem login_no_verification_error_propagates :
    ∀ (driver : PdOp → Except DriverError Unit) (dur : PdOp → Nat)
      (st : ExecState) (prefs : Credentials),
      ((∀ op, driver op = Except.ok ()) →
        (login driver dur st prefs).2 = Except.ok ()) ∧
      (∀ e : DriverError, (login driver dur st prefs).2 = Except.error e →
        ∃ op ∈ loginSteps prefs, driver op = Except.error e) := by
  intro driver dur st prefs
  constructor
  · intro hok
    rw [login, runSteps_ok_iff]
    simp [List.all_eq_true, stepOk, hok]
  · intro e h
    exact runSteps_error_mem driver dur (loginSteps prefs) st e h

/-- Witness for C7 at a concrete always-succeeding driver: login
completes with no further check. -/
theorem login_no_verification_error_propagates_witness :
    (login (fun _ => Except.ok ()) (fun _ => 0) ⟨0, []⟩
      ⟨"user", "user@example.com", "hunter2"⟩).2 = Except.ok () :=
  (login_no_verification_error_propagates (fun _ => Except.ok ()) (fun _ => 0)
    ⟨0, []⟩ ⟨"user", "user@example.com", "hunter2"⟩).1 (fun _ => rfl)

/-- C8: for each processed listing, the recorded elapsed time is the
wall-clock duration of that listing's attempt — the total duration in
milliseconds of the driver calls from the start of step 1 up to step-3
completion on success, or up to and including the failing call on
failure — truncated to whole seconds. -/
theorem updateTrades_elapsed_wall_clock :
    ∀ (driver : PdOp → Except DriverError Unit) (dur : PdOp → Nat)
      (st : ExecState) (urls : List (Option String)) (i : Nat),
      (((updateTrades driver dur st urls).2).get? i).map
          (fun r => r.elapsedSeconds) =
        (urls.get? i).map (fun u =>
          ((attempted driver (bumpSteps u)).map dur).sum / 1000) := by
  intro driver dur st urls i
  rw [updateTrades, updateTradesLoop_get?]
  cases urls.get? i with
  | none => rfl
  | some u => simp [entrySpec]

/-- C9: `setLogin` is atomic on error and complete on success: a failed
or aborted prompt leaves the stored credential record completely
unchanged, and a successful prompt persists all three fields, making the
stored record exactly the entered credentials. -/
theorem setLogin_error_atomic_success_persists :
    ∀ (prefs : Credentials) (msg : String) (c : Credentials),
      setLogin prefs (Except.error msg) = prefs ∧
      setLogin prefs (Except.ok c) = c ∧
      (setLogin prefs (Except.ok c)).username = c.username ∧
      (setLogin prefs (Except.ok c)).emailAddress = c.emailAddress ∧
      (setLogin prefs (Except.ok c)).password = c.password := by
  intro prefs msg c
  exact ⟨rfl, rfl, rfl, rfl, rfl⟩

/-- C10: the bump pipeline never writes the credential store: whatever
the driver does and however many scheduled cycles run, after `login` and
`n` discover/update cycles the stored record equals the record at run
start. -/
theorem bump_pipeline_preserves_credentials :
    ∀ (driver : PdOp → Except DriverError Unit) (dur : PdOp → Nat)
      (evalResult : List String) (target : Target) (n : Nat) (g : GlobalState),
      (bumpRun driver dur evalResult target n g).prefs = g.prefs := by
  intro driver dur evalResult target n g
  unfold bumpRun
  cases h : (login driver dur g.exec g.prefs).2 with
  | error e => simp only [h]
  | ok v =>
    cases v
    simp only [h]
    exact runCycles_prefs driver dur evalResult target n _
